import Mathlib

/-!
# Verification of the ez-workers remote-object protocol core

A shallow embedding of the host controller (src/index.js) and the worker
exposure registry (src/worker-handler.js) of the ez-workers repository,
together with theorems settling the frozen specification claims.

Modelling conventions:
* JavaScript values are the inductive `JsValue`; heap objects (objects,
  functions, classes, arrays) live in an explicit heap indexed by `Nat`
  and carry their `Object.prototype.toString` tag in a `kind` field.
* Thrown JavaScript exceptions are modelled by `JsError`, recording the
  constructor name, message and stack that `xError` reads from them.
  Message texts of engine-raised TypeErrors are approximated by short
  constant strings; no claim depends on their exact wording.
* Fallible evaluation is `Except JsError`; the try/catch structure of the
  source is mirrored by explicit matches on `Except` results.
-/

/-! ## Property keys and the symbol codec (worker-handler.js, symToText / textToSym) -/

/-- A JavaScript property key as it occurs in the worker registry: a plain
string, a well-known symbol (a symbol-valued property `Symbol.n` of the
`Symbol` namespace object), or a user-created symbol with a description. -/
inductive JsProp where
  | str (s : String)
  | wellKnownSym (n : String)
  | userSym (d : String)
deriving DecidableEq, Repr

/-- The symbol-valued properties of the `Symbol` namespace object (ES2020).
`textToSym` looks names up on `Symbol`; the function-valued properties
(`for`, `keyFor`) are not modelled, they are never produced by `String(sym)`
applied to an actual symbol description used in this development. -/
def wkSymbolNames : List String :=
  [ "asyncIterator", "hasInstance", "isConcatSpreadable", "iterator",
    "match", "matchAll", "replace", "search", "species", "split",
    "toPrimitive", "toStringTag", "unscopables" ]

/-- `String(sym)` for a symbol, and the identity on strings: the text form
of a property key. A well-known symbol `Symbol.iterator` prints as
`Symbol(Symbol.iterator)`; a user symbol prints its description. -/
def jsPropText : JsProp → String
  | .str s => s
  | .wellKnownSym n => "Symbol(Symbol." ++ n ++ ")"
  | .userSym d => "Symbol(" ++ d ++ ")"

/-- worker-handler.js `symToText`: symbols are replaced by their `String`
form; every other value is returned unchanged. -/
def symToText : JsProp → JsProp
  | .str s => .str s
  | .wellKnownSym n => .str (jsPropText (.wellKnownSym n))
  | .userSym d => .str (jsPropText (.userSym d))

/-- Strip an expected literal character sequence from the front of a
character list, or fail. -/
def dropLeadChars : List Char → List Char → Option (List Char)
  | [], cs => some cs
  | _ :: _, [] => none
  | p :: ps, c :: cs => if c = p then dropLeadChars ps cs else none

/-- Read a run of alphabetic characters that is terminated by a closing
parenthesis which in turn ends the input; returns the run. -/
def wkNameChars : List Char → Option (List Char)
  | [] => none
  | [c] => if c = ')' then some [] else none
  | c :: cs => if c.isAlpha then (wkNameChars cs).map (fun r => c :: r) else none

/-- The match against the regular expression
`^Symbol\(Symbol\.([a-zA-Z]+)\)$`: returns the captured nonempty
alphabetic name when the whole string has the shape
`Symbol(Symbol.<name>)`. -/
def wkSymbolMatch (s : String) : Option String :=
  match dropLeadChars "Symbol(Symbol.".data s.data with
  | none => none
  | some rest =>
      match wkNameChars rest with
      | some cs => if cs.isEmpty then none else some (String.mk cs)
      | none => none

/-- worker-handler.js `textToSym`: non-strings pass through; a string of
the shape `Symbol(Symbol.<name>)` whose name is found on the `Symbol`
namespace decodes to that well-known symbol; every other string is
returned as the string itself. -/
def textToSym : JsProp → JsProp
  | .str s =>
      match wkSymbolMatch s with
      | some n => if n ∈ wkSymbolNames then .wellKnownSym n else .str s
      | none => .str s
  | .wellKnownSym n => .wellKnownSym n
  | .userSym d => .userSym d

/-! ## Callable classification (worker-handler.js, funcType) -/

/-- The own property names of a bare strict-mode `function () {}`, as
computed for `funcNames` at module load: `length`, `name`, `prototype`. -/
def funcNames : List JsProp := [.str "length", .str "name", .str "prototype"]

/-- worker-handler.js `funcType`: classify a callable from the list of its
own property keys. No own `prototype` member means the callable is not
constructible, hence `arrowFunction`; otherwise an own legacy `arguments`
member marks a plain function (wire tag `function`, the kind the spec
names `plainFunction`), and everything else is a `class`. -/
def funcType (m : List JsProp) : String :=
  if JsProp.str "prototype" ∉ m then "arrowFunction"
  else if JsProp.str "arguments" ∈ m then "function"
  else "class"

/-- worker-handler.js `subtract`: the members of `s1` that are not listed
in `s2`, in order. Property lists of a single object are duplicate-free,
so the `Set` in the source is a plain filter here. -/
def subtract (s1 s2 : List JsProp) : List JsProp :=
  s1.filter (fun n => n ∉ s2)

/-! ## JavaScript values, heap objects, and thrown errors -/

/-- A JavaScript runtime value. Composite values (objects, functions,
classes, arrays and the like) are references into an explicit heap. -/
inductive JsValue where
  | vnull
  | vundefined
  | vbool (b : Bool)
  | vnum (n : Int)
  | vstr (s : String)
  | vref (oid : Nat)
deriving DecidableEq, Repr

/-- A thrown JavaScript exception, recorded by the three fields the worker
marshaller `xError` reads from it: `constructor.name`, `message`, `stack`. -/
structure JsError where
  type : String
  message : String
  stack : String
deriving DecidableEq, Repr

/-- A heap object: its `Object.prototype.toString` tag (`"Function"` for
functions and classes, `"Object"` for plain objects, `"Array"`, ...), its
`name` property, its own properties, and, when it is callable or
constructible, the behaviour of `base(...)` and `new base(...)`.
Construction yields the own-property list of the created instance. -/
structure JsObject where
  kind : String
  name : String
  props : List (JsProp × JsValue)
  callB : Option (List JsValue → Except JsError JsValue)
  ctorB : Option (List JsValue → Except JsError (List (JsProp × JsValue)))

/-- Worker-side state: the registry `exposed` (slot table, worker-handler.js)
and the heap the slot values refer into. -/
structure WState where
  exposed : List JsValue
  heap : List JsObject

/-- worker-handler.js `typeName`: the tag extracted from
`Object.prototype.toString.call(v)`, i.e. `[object <tag>]` without the
wrapper. -/
def typeName (st : WState) : JsValue → String
  | .vnull => "Null"
  | .vundefined => "Undefined"
  | .vbool _ => "Boolean"
  | .vnum _ => "Number"
  | .vstr _ => "String"
  | .vref oid => ((st.heap.get? oid).map JsObject.kind).getD "Object"

/-- worker-handler.js `props`: the own property keys of a value (string
keys followed by symbol keys, in the own-property order of the object).
Only
heap objects have modelled own properties. -/
def propsOf (st : WState) : JsValue → List JsProp
  | .vref oid => ((st.heap.get? oid).map (fun o => o.props.map Prod.fst)).getD []
  | _ => []

/-- The `name` property of a value as used by the descriptor builder:
the `name` field for heap objects, empty otherwise. -/
def jsNameOf (st : WState) : JsValue → String
  | .vref oid => ((st.heap.get? oid).map JsObject.name).getD ""
  | _ => ""

/-- A TypeError raised by the engine, with an approximate message. -/
def typeError (m : String) : JsError := ⟨"TypeError", m, ""⟩

/-- Own-property lookup on a concrete object property list. -/
def lookupProp (ps : List (JsProp × JsValue)) (k : JsProp) : Option JsValue :=
  (ps.find? (fun p => p.1 = k)).map Prod.snd

/-- Property read `v[k]`: throws a TypeError on `null` and `undefined`
bases; reads the own property (missing members read as `undefined`) on heap
objects; members of primitive wrappers are not modelled and read as
`undefined`. -/
def getProp (st : WState) (v : JsValue) (k : JsProp) : Except JsError JsValue :=
  match v with
  | .vnull => .error (typeError "Cannot read properties of null")
  | .vundefined => .error (typeError "Cannot read properties of undefined")
  | .vref oid =>
      .ok (((st.heap.get? oid).map (fun o => (lookupProp o.props k).getD .vundefined)).getD .vundefined)
  | _ => .ok .vundefined

/-- Total own-property read used by the descriptor builder, where the base
is a registered (hence non-nullish) entity. -/
def getOwnD (st : WState) (v : JsValue) (k : JsProp) : JsValue :=
  (getProp st v k).toOption.getD .vundefined

/-- Replace or add an own property in a property list. -/
def setPropList (ps : List (JsProp × JsValue)) (k : JsProp) (w : JsValue) :
    List (JsProp × JsValue) :=
  if ps.any (fun p => p.1 = k)
  then ps.map (fun p => if p.1 = k then (k, w) else p)
  else ps ++ [(k, w)]

/-- Property write `v[k] = w` in strict-mode code: throws a TypeError on
nullish and on primitive bases, updates the heap object otherwise. -/
def setProp (st : WState) (v : JsValue) (k : JsProp) (w : JsValue) :
    Except JsError WState :=
  match v with
  | .vref oid =>
      match st.heap.get? oid with
      | some o =>
          .ok { st with heap := st.heap.set oid { o with props := setPropList o.props k w } }
      | none => .ok st
  | .vnull => .error (typeError "Cannot set properties of null")
  | .vundefined => .error (typeError "Cannot set properties of undefined")
  | _ => .error (typeError "Cannot create property on primitive")

/-- worker-handler.js `has`: `Object.prototype.hasOwnProperty.call(v, k)`;
throws on nullish bases, tests own membership on heap objects, and is
`false` for unmodelled primitive wrapper members. -/
def hasOwn (st : WState) (v : JsValue) (k : JsProp) : Except JsError Bool :=
  match v with
  | .vnull => .error (typeError "Cannot convert null to object")
  | .vundefined => .error (typeError "Cannot convert undefined to object")
  | .vref oid => .ok (((st.heap.get? oid).map (fun o => o.props.any (fun p => p.1 = k))).getD false)
  | _ => .ok false

/-- Function application `v(args)`: runs the call behaviour of a callable
heap object, throws a TypeError otherwise. -/
def callValue (st : WState) (v : JsValue) (args : List JsValue) :
    Except JsError JsValue :=
  match v with
  | .vref oid =>
      match (st.heap.get? oid).bind JsObject.callB with
      | some f => f args
      | none => .error (typeError "is not a function")
  | _ => .error (typeError "is not a function")

/-- Constructor application `new v(args)`: runs the construct behaviour of
a constructible heap object, allocating the created instance as a fresh
plain object on the heap; throws a TypeError otherwise. -/
def constructValue (st : WState) (v : JsValue) (args : List JsValue) :
    Except JsError (WState × JsValue) :=
  match v with
  | .vref oid =>
      match (st.heap.get? oid).bind JsObject.ctorB with
      | some f =>
          match f args with
          | .ok ps => .ok ({ st with heap := st.heap ++ [⟨"Object", "", ps, none, none⟩] },
                           .vref st.heap.length)
          | .error e => .error e
      | none => .error (typeError "is not a constructor")
  | _ => .error (typeError "is not a constructor")

/-! ## Descriptors and the exposure registry (worker-handler.js) -/

/-- The wire descriptor of an exposed entity: `__$threadIndex` (the slot),
`__$name`, `__$type` (`funcType` for callables, `null` otherwise) and
`__$members` (member name in text form, paired with the type tag of the
member value at exposure time). -/
structure Descriptor where
  threadIndex : Nat
  name : String
  ftype : Option String
  members : List (String × String)
deriving DecidableEq, Repr

/-- worker-handler.js `members` merged with the literal built in
`makeList`: the descriptor of the entity `v` when it is pushed at slot
`idx`. The `__$name` computed in `makeList` is overwritten by the spread
of `members(...)`, so the name is `thing.name`. -/
def mkDescriptor (st : WState) (idx : Nat) (v : JsValue) : Descriptor :=
  { threadIndex := idx
    name := jsNameOf st v
    ftype := if typeName st v = "Function" then some (funcType (propsOf st v)) else none
    members := (subtract (propsOf st v) funcNames).map
      (fun n => (jsPropText (symToText n), typeName st (getOwnD st v n))) }

/-- worker-handler.js `makeList`: push each item on the `exposed` slot
table and build its descriptor; the assigned slot is the table length at
the moment of the push. -/
def makeList (st : WState) (items : List JsValue) : WState × List Descriptor :=
  items.foldl
    (fun acc it =>
      ({ acc.1 with exposed := acc.1.exposed ++ [it] },
       acc.2 ++ [mkDescriptor acc.1 acc.1.exposed.length it]))
    (st, [])

/-- A message sent from the worker to the host: a `result`, an `exposed`
descriptor list, or a marshalled `error`, each tagged with the invocation
id it answers (the bootstrap announcement carries none). -/
inductive Envelope where
  | result (inv : Option Nat) (v : JsValue)
  | exposedE (inv : Option Nat) (ds : List Descriptor)
  | err (inv : Option Nat) (e : JsError)
deriving DecidableEq, Repr

/-- The invocation id an envelope is tagged with. -/
def Envelope.inv : Envelope → Option Nat
  | .result i _ => i
  | .exposedE i _ => i
  | .err i _ => i

/-- worker-handler.js `xError`: marshal a thrown exception as its
constructor name, message and stack. -/
def xError (e : JsError) : JsError :=
  { type := e.type, message := e.message, stack := e.stack }

/-- worker-handler.js `couldExpose`: a value whose type tag is `Function`
or `Object` is registered as a new exposed entity and answered with an
`exposed` envelope; every other value is answered with a raw `result`. -/
def couldExpose (inv : Option Nat) (item : JsValue) (st : WState) :
    WState × Envelope :=
  if typeName st item = "Function" || typeName st item = "Object" then
    let r := makeList st [item]
    (r.1, .exposedE inv r.2)
  else
    (st, .result inv item)

/-! ## The worker message handler (worker-handler.js, onmessage) -/

/-- An inbound request envelope, after the default values of the handler
parameter destructuring: a missing `exposedIndex` is `0`, a `null` path is
the empty list (`asArray`), missing `args` are `[]`. -/
structure Msg where
  exposedIndex : Nat
  invocation : Option Nat
  path : List String
  action : String
  args : List JsValue

/-- The key of a request: `textToSym` of the last path segment, or `null`
(here `none`) for an empty path. -/
def msgKey (m : Msg) : Option JsProp :=
  (m.path.getLast?).map (fun s => textToSym (.str s))

/-- JavaScript truthiness of the key, which decides between `base[key](...)`
and `base(...)` in the `call` and `construct` actions: `null` and the
empty string are falsy. -/
def keyTruthy : Option JsProp → Bool
  | none => false
  | some (.str s) => s ≠ ""
  | some _ => true

/-- The key as a property key: `base[null]` coerces the key to the string
`"null"`. -/
def keyOrNull : Option JsProp → JsProp
  | none => .str "null"
  | some k => k

/-- The `get` closure of the handler:
`path.reduce((base, part) => base ?? base[textToSym(part)], exposed[i])`.
A non-nullish accumulator short-circuits the `??` and is returned
unchanged; a nullish accumulator evaluates the member access on a nullish
base, which throws. -/
def getChain (st : WState) (start : JsValue) : List String → Except JsError JsValue
  | [] => .ok start
  | part :: rest =>
      match start with
      | .vnull => getProp st .vnull (textToSym (.str part))
      | .vundefined => getProp st .vundefined (textToSym (.str part))
      | b =>
          match getChain st b rest with
          | r => r

/-- The base of a request: the slot value when the path (after popping the
key) is empty, and the result of the `get` chain otherwise. A slot index
outside the table reads as `undefined`. -/
def resolveBase (st : WState) (m : Msg) : Except JsError JsValue :=
  let start := st.exposed.getD m.exposedIndex .vundefined
  let rest := m.path.dropLast
  if rest.length > 0 then getChain st start rest else .ok start

/-- Tombstone a slot: `exposed[i] = null` on a JavaScript array, which
sets the entry when `i` is in range and extends the array with holes
(which read as `undefined`) otherwise. -/
def setTomb (l : List JsValue) (i : Nat) : List JsValue :=
  if i < l.length then l.set i .vnull
  else l ++ List.replicate (i - l.length) .vundefined ++ [.vnull]

/-- The evaluation of `base[key]` performed by the `read` action. -/
def readEval (st : WState) (m : Msg) : Except JsError JsValue :=
  match resolveBase st m with
  | .error e => .error e
  | .ok base => getProp st base (keyOrNull (msgKey m))

/-- The body of the worker message handler inside its try block: resolve
the base, then run the action from the dispatch object. A `call` whose
execution throws is answered from the inner catch with an `error`
envelope; an unknown action name reads `undefined` from the dispatch
object literal and throws a TypeError when invoked. -/
def dispatchCore (st : WState) (m : Msg) : Except JsError (WState × Envelope) :=
  match resolveBase st m with
  | .error e => .error e
  | .ok base =>
    if m.action = "write" then
      match setProp st base (keyOrNull (msgKey m)) (m.args.getD 0 .vundefined) with
      | .error e => .error e
      | .ok st2 => .ok (st2, .result m.invocation (m.args.getD 0 .vundefined))
    else if m.action = "read" then
      match getProp st base (keyOrNull (msgKey m)) with
      | .error e => .error e
      | .ok v => .ok (couldExpose m.invocation v st)
    else if m.action = "has" then
      match hasOwn st base (keyOrNull (msgKey m)) with
      | .error e => .error e
      | .ok b => .ok (st, .result m.invocation (.vbool b))
    else if m.action = "construct" then
      match (if keyTruthy (msgKey m) then getProp st base (keyOrNull (msgKey m)) else .ok base) with
      | .error e => .error e
      | .ok target =>
        match constructValue st target m.args with
        | .error e => .error e
        | .ok r => .ok (couldExpose m.invocation r.2 r.1)
    else if m.action = "call" then
      match (match (if keyTruthy (msgKey m) then getProp st base (keyOrNull (msgKey m)) else .ok base) with
             | .error e => Except.error e
             | .ok target => callValue st target m.args) with
      | .error e => .ok (st, .err m.invocation (xError e))
      | .ok v => .ok (couldExpose m.invocation v st)
    else if m.action = "destroy" then
      .ok ({ st with exposed := setTomb st.exposed m.exposedIndex },
           .result m.invocation .vnull)
    else
      .error (typeError "is not a function")

/-- The worker message handler: the try/catch around `dispatchCore`. Any
exception escaping the dispatch is answered with an `error` envelope
carrying `xError` of the exception, tagged with the request invocation
id; the handler itself never rethrows. -/
def onmessage (st : WState) (m : Msg) : WState × Envelope :=
  match dispatchCore st m with
  | .ok r => r
  | .error e => (st, .err m.invocation (xError e))

/-! ## The host controller (index.js) -/

/-- The names under which error constructors are found on `globalThis`;
`thread.onmessage` rebuilds a local error with
`new globalThis[error.type](error.message)`. -/
def globalErrorCtors : List String :=
  [ "Error", "TypeError", "RangeError", "SyntaxError", "ReferenceError",
    "EvalError", "URIError", "AggregateError" ]

/-- The host-side object rebuilt from a marshalled error:
`{ ...new globalThis[error.type](error.message), stack: error.stack }`.
The `message` and `stack` own properties of a fresh `Error` instance are
non-enumerable, so the spread copies none of them; the only own
enumerable property of the rebuilt object is the `stack` set explicitly.
Its `props` field lists those own enumerable properties. -/
structure HostErrObj where
  props : List (String × String)
deriving DecidableEq, Repr

/-- Rebuild a local error object from the wire error, as the spread
expression does. Only defined up to the enumerable surface; the rebuilt
value is a plain object, not an instance of the named constructor. -/
def reconstructError (e : JsError) : HostErrObj :=
  ⟨[("stack", e.stack)]⟩

/-- How a pending invocation settles: `resolve(result)` with a raw value,
`resolve` with the stand-ins built from an `exposed` response, or
`reject` with the rebuilt error object. -/
inductive Settled where
  | result (v : JsValue)
  | standins (ds : List Descriptor)
  | errored (e : HostErrObj)
deriving DecidableEq, Repr

/-- The settlement a response payload produces when its listener runs
(`thread.onmessage` branches in index.js). -/
def interpretPayload : Envelope → Settled
  | .result _ v => .result v
  | .exposedE _ ds => .standins ds
  | .err _ e => .errored (reconstructError e)

/-- Whether `thread.onmessage` reaches the `events.emit` call for this
envelope: an `error` response whose `type` does not name a global error
constructor makes `new globalThis[error.type]` throw a TypeError inside
the handler, before `emit`, so its invocation is never settled. -/
def canInterpret : Envelope → Bool
  | .err _ e => e.type ∈ globalErrorCtors
  | _ => true

/-- Host bookkeeping for pending invocations: `pending` is the set of
invocation ids with a live `events.once` listener, `settled` records, in
order, each settlement together with the id it settled. -/
structure HostState where
  pending : List Nat
  settled : List (Nat × Settled)

/-- Process one inbound response envelope. An envelope without an
invocation id is the bootstrap announcement and settles no pending
invocation; an envelope whose id has no live listener is discarded by
`events.emit`; otherwise the once-listener is removed and the invocation
settles with the interpreted payload. An error envelope the handler
cannot interpret (see `canInterpret`) throws before `emit` and settles
nothing. -/
def processResp (st : HostState) (r : Envelope) : HostState :=
  match r.inv with
  | none => st
  | some id =>
      if id ∈ st.pending && canInterpret r then
        { pending := st.pending.erase id, settled := st.settled ++ [(id, interpretPayload r)] }
      else st

/-- Process a whole arrival sequence of responses. -/
def processAll (st : HostState) (rs : List Envelope) : HostState :=
  rs.foldl processResp st

/-- The settlements recorded for one invocation id, in arrival order. -/
def settledFor (st : HostState) (id : Nat) : List Settled :=
  (st.settled.filter (fun x => x.1 = id)).map Prod.snd

/-- What the caller of `request(...)` observes. The promise built inside
`request` resolves or rejects as the listener decides, but `request`
returns that promise with `.catch(console.error)` appended, so a
rejection is consumed by the logging handler and the returned promise
resolves with `undefined` (the value of `console.error(...)`). -/
inductive Outcome where
  | resolved (v : JsValue)
  | resolvedStandins (ds : List Descriptor)
  | rejected (e : HostErrObj)
deriving DecidableEq, Repr

/-- The settlement of the inner promise allocated by `request`. -/
def innerOutcome : Settled → Outcome
  | .result v => .resolved v
  | .standins ds => .resolvedStandins ds
  | .errored e => .rejected e

/-- The settlement of the promise `request` actually returns, after the
trailing `.catch(console.error)`. -/
def requestReturn (s : Settled) : Outcome :=
  match innerOutcome s with
  | .rejected _ => .resolved .vundefined
  | o => o

/-! ## Teardown: flush and terminate (index.js) -/

/-- The observable state of one run of `flush()`: the size of the
in-flight set, the `abort` flag, whether the zero-delay timeout (`handle`)
and the two-second re-check (`waitHandle`) are still armed, whether the
returned promise has been resolved, and whether the timeout handler has
force-rejected the in-flight set. -/
structure FlushState where
  inFlight : Nat
  abort : Bool
  timeoutArmed : Bool
  recheckArmed : Bool
  resolved : Bool
  forceRejected : Bool
deriving DecidableEq, Repr

/-- The `check` closure of `flush`: when the in-flight set is empty or the
abort flag is set, clear the timeout and resolve; otherwise arm the
two-second re-check. -/
def runCheck (s : FlushState) : FlushState :=
  if s.inFlight = 0 || s.abort then
    { s with timeoutArmed := false, resolved := true }
  else
    { s with recheckArmed := true }

/-- Entering `flush()` with `n` requests in flight: arm the zero-delay
timeout, then run `check` once synchronously. -/
def flushStart (n : Nat) : FlushState :=
  runCheck { inFlight := n, abort := false, timeoutArmed := true,
             recheckArmed := false, resolved := false, forceRejected := false }

/-- The timer events that can fire during a `flush` run in which no
response ever arrives. -/
inductive FlushEvent where
  | timeoutFires
  | recheckFires
deriving DecidableEq, Repr

/-- Firing a timer. The timeout handler sets `abort`, builds the timeout
error, cancels the armed re-check with `clearTimeout(waitHandle)`, rejects
every in-flight request and clears the set; the re-check timer runs
`check` again. A timer that is not armed does nothing. -/
def flushStep (s : FlushState) : FlushEvent → FlushState
  | .timeoutFires =>
      if s.timeoutArmed then
        { inFlight := 0, abort := true, timeoutArmed := false,
          recheckArmed := false, resolved := s.resolved,
          forceRejected := s.forceRejected || decide (0 < s.inFlight) }
      else s
  | .recheckFires =>
      if s.recheckArmed then runCheck { s with recheckArmed := false } else s

/-- Run a sequence of timer firings. -/
def flushRun (s : FlushState) (evs : List FlushEvent) : FlushState :=
  evs.foldl flushStep s

/-- The error the timeout handler rejects the in-flight set with:
`new Error("Timeout on worker thread")`, a plain `Error`. -/
def flushTimeoutError : JsError := ⟨"Error", "Timeout on worker thread", ""⟩

/-- The continuation of `terminate()` after the `destroy` request has been
answered: `inFlight.size === 0 ? thread.terminate() : flush()`. The first
component records whether `thread.terminate()` is invoked on this branch,
the second is the flush run that is started instead (the flush body never
invokes `thread.terminate()`). -/
def terminateAfterDestroyAck (n : Nat) : Bool × Option FlushState :=
  if n = 0 then (true, none) else (false, some (flushStart n))

/-! ## Registry lifecycle operations (worker-handler.js, makeList / destroy) -/

/-- One registry operation: expose a new entity (one `makeList` push) or
handle a `destroy` request for a slot. -/
inductive RegOp where
  | expose (v : JsValue)
  | destroy (i : Nat)

/-- Apply one registry operation to the worker state. -/
def regStep (st : WState) : RegOp → WState
  | .expose v => (makeList st [v]).1
  | .destroy i => { st with exposed := setTomb st.exposed i }

/-- Run a sequence of registry operations from a starting state. -/
def regRun (st : WState) (ops : List RegOp) : WState :=
  ops.foldl regStep st

/-- The slot ids assigned over a run, in order: each `expose` records the
`__$threadIndex` of the descriptor it builds. -/
def assignedSlots (st : WState) : List RegOp → List Nat
  | [] => []
  | .expose v :: ops =>
      ((makeList st [v]).2.map Descriptor.threadIndex) ++ assignedSlots (regStep st (.expose v)) ops
  | .destroy i :: ops => assignedSlots (regStep st (.destroy i)) ops

/-! ## Claim theorems -/

/-- C7: a callable with no own `prototype` member is classified
`arrowFunction`; one with an own `prototype` member and an own legacy
`arguments` member is a plain function (wire tag `function`, the kind the
spec calls `plainFunction`); every other callable is a `class`. -/
theorem funcType_classifies (m : List JsProp) :
    (funcType m = "arrowFunction" ↔ JsProp.str "prototype" ∉ m)
    ∧ (funcType m = "function" ↔ (JsProp.str "prototype" ∈ m ∧ JsProp.str "arguments" ∈ m))
    ∧ (funcType m = "class" ↔ (JsProp.str "prototype" ∈ m ∧ JsProp.str "arguments" ∉ m)) := by
  unfold funcType
  by_cases hp : JsProp.str "prototype" ∈ m <;> by_cases ha : JsProp.str "arguments" ∈ m <;>
    simp [hp, ha]

/-- C7 witness: a callable whose only own member is `prototype` (no
legacy `arguments` member) is classified `class`. -/
theorem funcType_classifies_witness :
    funcType [JsProp.str "prototype"] = "class" :=
  (funcType_classifies [JsProp.str "prototype"]).2.2.mpr (by decide)

/-- C8 counterexample: a user-created symbol with description `foo` does
not survive the round trip: it encodes to the text `Symbol(foo)` and
decodes to that text, not back to the symbol. The codec is reversible
only on a fixed subset of symbol-like names. -/
theorem symbol_roundtrip_fails_for_user_symbol :
    textToSym (symToText (.userSym "foo")) = .str "Symbol(foo)"
    ∧ textToSym (symToText (.userSym "foo")) ≠ .userSym "foo" := by
  decide

/-- C8 amended: the encode/decode round trip restores exactly the
well-known symbols, i.e. the symbol-valued `Symbol.<name>` entries of the
`Symbol` namespace; any other symbol decodes to its text form instead of
itself. -/
theorem symbol_roundtrip_wellknown (n : String) (h : n ∈ wkSymbolNames) :
    textToSym (symToText (.wellKnownSym n)) = .wellKnownSym n := by
  simp only [wkSymbolNames, List.mem_cons, List.not_mem_nil, or_false] at h
  rcases h with rfl | rfl | rfl | rfl | rfl | rfl | rfl | rfl | rfl | rfl | rfl | rfl | rfl <;>
    decide

/-- C8 amended witness: `Symbol.iterator` survives the round trip. -/
theorem symbol_roundtrip_wellknown_witness :
    textToSym (symToText (.wellKnownSym "iterator")) = .wellKnownSym "iterator" :=
  symbol_roundtrip_wellknown "iterator" (by decide)

/-- A slot whose entry is already `null` is left unchanged by writing
`null` to it again. -/
theorem set_null_fixed {l : List JsValue} {i : Nat} (h : l.get? i = some .vnull) :
    l.set i .vnull = l := by
  induction l generalizing i with
  | nil => simp at h
  | cons a t ih =>
      cases i with
      | zero => simp_all
      | succ j =>
          simp only [List.get?_cons_succ] at h
          simp [ih h]

/-- C10: a `destroy` request against an already tombstoned slot leaves
the worker state (slot table and heap) unchanged and is acknowledged with
the same trivial `result` envelope carrying `null` as the first destroy,
never with an error. -/
theorem destroy_idempotent (st : WState) (i : Nat) (inv : Option Nat)
    (h : st.exposed.get? i = some .vnull) :
    onmessage st ⟨i, inv, [], "destroy", []⟩ = (st, .result inv .vnull) := by
  have hi : i < st.exposed.length := by
    rcases Nat.lt_or_ge i st.exposed.length with hlt | hge
    · exact hlt
    · rw [List.get?_eq_none.mpr hge] at h
      exact Option.noConfusion h
  simp [onmessage, dispatchCore, resolveBase, setTomb, hi, set_null_fixed h]

/-- C10 witness: destroying slot 0 of a table whose only entry is already
tombstoned changes nothing and answers `result null`. -/
theorem destroy_idempotent_witness :
    onmessage ⟨[.vnull], []⟩ ⟨0, some 5, [], "destroy", []⟩
      = (⟨[.vnull], []⟩, .result (some 5) .vnull) :=
  destroy_idempotent ⟨[.vnull], []⟩ 0 (some 5) (by rfl)

/-- C2: evaluation of the code at the failing inputs. After `destroy` has
tombstoned slot 0 (its entry is `null`), each of the five actions against
that slot is answered with a marshalled `TypeError` raised by the member
access on the `null` base — an error response, so never a silent `null`
result, but of kind `TypeError`, not the `StaleReferenceError` the design
mandates. -/
theorem tombstoned_slot_raises_TypeError :
    (onmessage ⟨[.vnull], []⟩ ⟨0, some 1, ["x"], "read", []⟩).2
      = .err (some 1) ⟨"TypeError", "Cannot read properties of null", ""⟩
    ∧ (onmessage ⟨[.vnull], []⟩ ⟨0, some 2, ["x"], "write", [.vnum 1]⟩).2
      = .err (some 2) ⟨"TypeError", "Cannot set properties of null", ""⟩
    ∧ (onmessage ⟨[.vnull], []⟩ ⟨0, some 3, ["x"], "has", []⟩).2
      = .err (some 3) ⟨"TypeError", "Cannot convert null to object", ""⟩
    ∧ (onmessage ⟨[.vnull], []⟩ ⟨0, some 4, [], "call", []⟩).2
      = .err (some 4) ⟨"TypeError", "is not a function", ""⟩
    ∧ (onmessage ⟨[.vnull], []⟩ ⟨0, some 5, [], "construct", []⟩).2
      = .err (some 5) ⟨"TypeError", "is not a constructor", ""⟩ := by
  decide

/-- Every envelope built by a successful dispatch is tagged with the
invocation id of the request it answers. -/
theorem dispatchCore_inv (st : WState) (m : Msg) (p : WState × Envelope)
    (h : dispatchCore st m = .ok p) : p.2.inv = m.invocation := by
  have hce : ∀ (i : Option Nat) (v : JsValue) (s : WState),
      ((couldExpose i v s).2).inv = i := by
    intro i v s
    unfold couldExpose
    split <;> rfl
  unfold dispatchCore at h
  split at h
  · exact Except.noConfusion h
  · split at h
    · -- write
      split at h
      · exact Except.noConfusion h
      · injection h with h; subst h; rfl
    · split at h
      · -- read
        split at h
        · exact Except.noConfusion h
        · injection h with h; subst h; exact hce _ _ _
      · split at h
        · -- has
          split at h
          · exact Except.noConfusion h
          · injection h with h; subst h; rfl
        · split at h
          · -- construct
            split at h
            · exact Except.noConfusion h
            · split at h
              · exact Except.noConfusion h
              · injection h with h; subst h; exact hce _ _ _
          · split at h
            · -- call
              split at h
              · injection h with h; subst h; rfl
              · injection h with h; subst h; exact hce _ _ _
            · split at h
              · -- destroy
                injection h with h; subst h; rfl
              · exact Except.noConfusion h

/-- C9: the worker message handler answers every inbound request envelope
with exactly one response tagged with the request invocation id, for all
states, all action strings (including unrecognized ones) and all slot
indices (including out-of-range ones); whenever the dispatch raises an
exception that no branch has already answered, the handler converts it
into an `error` envelope carrying the exception constructor name, message
and stack, and never rethrows. -/
theorem handler_answers_every_request (st : WState) (m : Msg) :
    ((onmessage st m).2).inv = m.invocation
    ∧ ∀ e, dispatchCore st m = .error e →
        onmessage st m = (st, .err m.invocation ⟨e.type, e.message, e.stack⟩) := by
  constructor
  · unfold onmessage
    cases hd : dispatchCore st m with
    | error e => rfl
    | ok p => exact dispatchCore_inv st m p hd
  · intro e he
    unfold onmessage
    rw [he]
    exact rfl

/-- C9 witness: an unrecognized action name against an out-of-range slot
is answered with an `error` envelope tagged with the request id and
carrying the TypeError raised by invoking the missing dispatch entry. -/
theorem handler_answers_every_request_witness :
    onmessage ⟨[], []⟩ ⟨3, some 9, [], "frobnicate", []⟩
      = (⟨[], []⟩, .err (some 9) ⟨"TypeError", "is not a function", ""⟩) :=
  (handler_answers_every_request ⟨[], []⟩ ⟨3, some 9, [], "frobnicate", []⟩).2
    ⟨"TypeError", "is not a function", ""⟩ (by rfl)

/-- C6: a `read` request whose member access resolves to `v` is answered
by registering `v` as a new exposed entity (fresh slot = current table
length, fresh descriptor) in an `exposed` envelope when the type tag of
`v` is `Function` (functions and classes) or `Object`; every other value
(numbers, strings, booleans, `null`, `undefined`, and non-plain tags) is
answered with a `result` envelope carrying the raw value, leaving the
registry unchanged. -/
theorem read_applies_exposable_rule (st : WState) (m : Msg) (v : JsValue)
    (ha : m.action = "read") (hv : readEval st m = .ok v) :
    (typeName st v = "Function" ∨ typeName st v = "Object" →
       onmessage st m = ({ st with exposed := st.exposed ++ [v] },
         .exposedE m.invocation [mkDescriptor st st.exposed.length v]))
    ∧ ((typeName st v ≠ "Function" ∧ typeName st v ≠ "Object") →
       onmessage st m = (st, .result m.invocation v)) := by
  have hcore : onmessage st m = couldExpose m.invocation v st := by
    unfold readEval at hv
    unfold onmessage dispatchCore
    cases hb : resolveBase st m with
    | error e =>
        rw [hb] at hv
        exact Except.noConfusion hv
    | ok base =>
        rw [hb] at hv
        dsimp only at hv ⊢
        rw [ha]
        simp [hv]
  refine ⟨fun hexp => ?_, fun hraw => ?_⟩
  · rw [hcore]
    unfold couldExpose
    rcases hexp with h | h <;> simp [h, makeList]
  · rw [hcore]
    unfold couldExpose
    simp [hraw.1, hraw.2]

/-- C6 witness: reading member `f` of the object in slot 0, whose value
is a function, exposes that function at the fresh slot 1 and answers with
its descriptor; the table gains exactly that entry. -/
theorem read_applies_exposable_rule_witness :
    onmessage
        ⟨[.vref 0], [⟨"Object", "", [(.str "f", .vref 1)], none, none⟩,
                     ⟨"Function", "f", [], none, none⟩]⟩
        ⟨0, some 7, ["f"], "read", []⟩
      = (⟨[.vref 0, .vref 1], [⟨"Object", "", [(.str "f", .vref 1)], none, none⟩,
                               ⟨"Function", "f", [], none, none⟩]⟩,
         .exposedE (some 7) [⟨1, "f", some "arrowFunction", []⟩]) :=
  (read_applies_exposable_rule
      ⟨[.vref 0], [⟨"Object", "", [(.str "f", .vref 1)], none, none⟩,
                   ⟨"Function", "f", [], none, none⟩]⟩
      ⟨0, some 7, ["f"], "read", []⟩ (.vref 1) rfl (by rfl)).1 (Or.inl (by rfl))

/-- Exposing one entity appends it to the slot table. -/
theorem regStep_expose_exposed (st : WState) (v : JsValue) :
    (regStep st (.expose v)).exposed = st.exposed ++ [v] := rfl

/-- Tombstoning never shrinks the slot table. -/
theorem setTomb_length_le (l : List JsValue) (i : Nat) :
    l.length ≤ (setTomb l i).length := by
  unfold setTomb
  split
  · simp
  · simp

/-- No registry operation shrinks the slot table. -/
theorem regStep_length_le (st : WState) (op : RegOp) :
    st.exposed.length ≤ (regStep st op).exposed.length := by
  cases op with
  | expose v => simp [regStep_expose_exposed]
  | destroy i => exact setTomb_length_le st.exposed i

/-- One step of `assignedSlots` over an `expose`: the slot handed out is
the current table length. -/
theorem assignedSlots_expose (st : WState) (v : JsValue) (ops : List RegOp) :
    assignedSlots st (.expose v :: ops)
      = st.exposed.length :: assignedSlots (regStep st (.expose v)) ops := rfl

/-- One step of `assignedSlots` over a `destroy`: no slot is assigned. -/
theorem assignedSlots_destroy (st : WState) (i : Nat) (ops : List RegOp) :
    assignedSlots st (.destroy i :: ops)
      = assignedSlots (regStep st (.destroy i)) ops := rfl

/-- Every slot id assigned during a run is at least the table length at
the start of the run. -/
theorem assignedSlots_lower_bound (ops : List RegOp) :
    ∀ (st : WState) (x : Nat), x ∈ assignedSlots st ops → st.exposed.length ≤ x := by
  induction ops with
  | nil =>
      intro st x hx
      simp [assignedSlots] at hx
  | cons op rest ih =>
      intro st x hx
      cases op with
      | expose v =>
          rw [assignedSlots_expose] at hx
          rcases List.mem_cons.mp hx with rfl | hx2
          · exact Nat.le_refl _
          · have h2 := ih _ _ hx2
            have h3 := regStep_length_le st (.expose v)
            omega
      | destroy i =>
          rw [assignedSlots_destroy] at hx
          have h2 := ih _ _ hx
          have h3 := regStep_length_le st (.destroy i)
          omega

/-- The slot ids assigned over any run are strictly increasing. -/
theorem assignedSlots_pairwise (ops : List RegOp) :
    ∀ st : WState, List.Pairwise (· < ·) (assignedSlots st ops) := by
  induction ops with
  | nil => intro st; simp [assignedSlots]
  | cons op rest ih =>
      intro st
      cases op with
      | expose v =>
          rw [assignedSlots_expose]
          refine List.Pairwise.cons ?_ (ih _)
          intro x hx
          have h2 := assignedSlots_lower_bound rest _ x hx
          have h3 : (regStep st (.expose v)).exposed.length = st.exposed.length + 1 := by
            simp [regStep_expose_exposed]
          omega
      | destroy i =>
          rw [assignedSlots_destroy]
          exact ih _

/-- One registry operation either leaves a populated slot as it is or
tombstones it; it never rebinds the slot to another entity. -/
theorem regStep_cell (st : WState) (op : RegOp) (s : Nat) (v : JsValue)
    (h : st.exposed.get? s = some v) :
    (regStep st op).exposed.get? s = some v
    ∨ (regStep st op).exposed.get? s = some .vnull := by
  have hs : s < st.exposed.length := by
    rcases Nat.lt_or_ge s st.exposed.length with hlt | hge
    · exact hlt
    · rw [List.get?_eq_none.mpr hge] at h
      exact Option.noConfusion h
  cases op with
  | expose w =>
      left
      rw [regStep_expose_exposed, List.get?_append hs]
      exact h
  | destroy i =>
      show (setTomb st.exposed i).get? s = some v ∨ (setTomb st.exposed i).get? s = some .vnull
      unfold setTomb
      split
      · by_cases hsi : i = s
        · subst hsi
          right
          rw [List.get?_set_eq, h]
          rfl
        · left
          rw [List.get?_set_ne _ _ hsi]
          exact h
      · left
        rw [List.append_assoc, List.get?_append hs]
        exact h

/-- Over any run of registry operations, a populated slot keeps naming
the same entity until (at most) it is tombstoned. -/
theorem regRun_cell (ops : List RegOp) :
    ∀ (st : WState) (s : Nat) (v : JsValue), st.exposed.get? s = some v →
      (regRun st ops).exposed.get? s = some v
      ∨ (regRun st ops).exposed.get? s = some .vnull := by
  induction ops with
  | nil =>
      intro st s v h
      exact Or.inl h
  | cons op rest ih =>
      intro st s v h
      rcases regStep_cell st op s v h with h1 | h1
      · exact ih (regStep st op) s v h1
      · rcases ih (regStep st op) s .vnull h1 with h2 | h2
        · exact Or.inr h2
        · exact Or.inr h2

/-- C5: over every sequence of registry operations, slot ids are assigned
in strictly increasing order (hence never reused, even after
tombstoning), and a slot that names an entity at some point of the run
still names that same entity, or has been tombstoned to `null`, at every
later point — it is never rebound to a different entity. -/
theorem slot_ids_monotone_never_reused (st0 : WState) (ops : List RegOp) :
    List.Pairwise (· < ·) (assignedSlots st0 ops)
    ∧ ∀ (n m s : Nat) (v : JsValue), n ≤ m →
        (regRun st0 (ops.take n)).exposed.get? s = some v →
        ((regRun st0 (ops.take m)).exposed.get? s = some v
          ∨ (regRun st0 (ops.take m)).exposed.get? s = some .vnull) := by
  constructor
  · exact assignedSlots_pairwise ops st0
  · intro n m s v hnm h
    have hdecomp : ops.take m = ops.take n ++ (ops.drop n).take (m - n) := by
      rw [← List.take_add]
      congr 1
      omega
    rw [hdecomp]
    have hrw : regRun st0 (ops.take n ++ (ops.drop n).take (m - n))
        = regRun (regRun st0 (ops.take n)) ((ops.drop n).take (m - n)) := by
      simp [regRun, List.foldl_append]
    rw [hrw]
    exact regRun_cell ((ops.drop n).take (m - n)) (regRun st0 (ops.take n)) s v h

/-- C5 witness: expose an entity at slot 0, destroy it, expose another
entity (which gets the fresh slot 1, not the tombstoned slot 0); after
the full run, slot 0 is tombstoned — it was never rebound. -/
theorem slot_ids_monotone_never_reused_witness :
    (regRun ⟨[], []⟩ ([RegOp.expose (.vref 0), RegOp.destroy 0,
        RegOp.expose (.vref 1)].take 3)).exposed.get? 0 = some (.vref 0)
    ∨ (regRun ⟨[], []⟩ ([RegOp.expose (.vref 0), RegOp.destroy 0,
        RegOp.expose (.vref 1)].take 3)).exposed.get? 0 = some .vnull :=
  (slot_ids_monotone_never_reused ⟨[], []⟩
      [RegOp.expose (.vref 0), RegOp.destroy 0, RegOp.expose (.vref 1)]).2
    1 3 0 (.vref 0) (by omega) (by rfl)

/-- A bootstrap announcement (no invocation id) settles nothing. -/
theorem processResp_none (st : HostState) (r : Envelope) (h : r.inv = none) :
    processResp st r = st := by
  unfold processResp
  rw [h]

/-- An interpretable response whose id has a live listener removes that
listener and records the settlement. -/
theorem processResp_hit (st : HostState) (r : Envelope) (j : Nat)
    (h : r.inv = some j) (hj : j ∈ st.pending) (hc : canInterpret r = true) :
    processResp st r = ⟨st.pending.erase j, st.settled ++ [(j, interpretPayload r)]⟩ := by
  unfold processResp
  rw [h]
  simp [hj, hc]

/-- A response whose id has no live listener, or which the handler cannot
interpret, changes nothing. -/
theorem processResp_miss (st : HostState) (r : Envelope) (j : Nat)
    (h : r.inv = some j) (hj : (decide (j ∈ st.pending) && canInterpret r) = false) :
    processResp st r = st := by
  unfold processResp
  rw [h]
  simp [hj]

/-- A response leaves the settlements of an id that has no live listener
untouched, and never re-registers that id. -/
theorem processResp_other (st : HostState) (r : Envelope) (id : Nat)
    (h : id ∉ st.pending) :
    settledFor (processResp st r) id = settledFor st id
    ∧ id ∉ (processResp st r).pending := by
  cases hri : r.inv with
  | none =>
      rw [processResp_none st r hri]
      exact ⟨rfl, h⟩
  | some j =>
      by_cases hcond : (decide (j ∈ st.pending) && canInterpret r) = true
      · have hparts := hcond
        simp only [Bool.and_eq_true, decide_eq_true_eq] at hparts
        have hne : j ≠ id := by
          intro he
          exact h (he ▸ hparts.1)
        rw [processResp_hit st r j hri hparts.1 hparts.2]
        refine ⟨?_, ?_⟩
        · unfold settledFor
          rw [List.filter_append]
          simp [hne]
        · intro hmem
          exact h (List.mem_of_mem_erase hmem)
      · rw [processResp_miss st r j hri (Bool.eq_false_iff.mpr hcond)]
        exact ⟨rfl, h⟩

/-- Once an invocation has no live listener, no sequence of further
responses adds a settlement for it: duplicates are discarded. -/
theorem processAll_not_pending (rs : List Envelope) :
    ∀ (st : HostState) (id : Nat), id ∉ st.pending →
      settledFor (processAll st rs) id = settledFor st id := by
  induction rs with
  | nil =>
      intro st id h
      rfl
  | cons r rest ih =>
      intro st id h
      have hstep := processResp_other st r id h
      calc settledFor (processAll (processResp st r) rest) id
          = settledFor (processResp st r) id := ih _ _ hstep.2
        _ = settledFor st id := hstep.1

/-- Full characterisation of the settlements of one pending invocation
over an arbitrary arrival sequence of interpretable responses: the
settlements gained are exactly the interpretation of the first response
bearing its own id, if any. -/
theorem processAll_settles_spec (rs : List Envelope) :
    ∀ (st : HostState) (id : Nat), st.pending.Nodup → id ∈ st.pending →
      (∀ r ∈ rs, canInterpret r = true) →
      settledFor (processAll st rs) id
        = settledFor st id
          ++ ((rs.find? (fun x => x.inv = some id)).map interpretPayload).toList := by
  induction rs with
  | nil =>
      intro st id hnd hid hok
      exact (List.append_nil _).symm
  | cons r rest ih =>
      intro st id hnd hid hok
      by_cases hri : r.inv = some id
      · have hci : canInterpret r = true := hok r (List.mem_cons_self r rest)
        have hstep := processResp_hit st r id hri hid hci
        have hnot : id ∉ st.pending.erase id := by
          intro hmem
          rcases (hnd.mem_erase_iff).mp hmem with ⟨hne, _⟩
          exact hne rfl
        have hfin := processAll_not_pending rest
          ⟨st.pending.erase id, st.settled ++ [(id, interpretPayload r)]⟩ id hnot
        have hmid : settledFor ⟨st.pending.erase id, st.settled ++ [(id, interpretPayload r)]⟩ id
            = settledFor st id ++ [interpretPayload r] := by
          unfold settledFor
          rw [List.filter_append]
          simp
        have hfind : (r :: rest).find? (fun x => x.inv = some id) = some r := by
          simp [List.find?_cons, hri]
        calc settledFor (processAll st (r :: rest)) id
            = settledFor (processAll ⟨st.pending.erase id,
                st.settled ++ [(id, interpretPayload r)]⟩ rest) id := by
              show settledFor (processAll (processResp st r) rest) id = _
              rw [hstep]
          _ = settledFor st id ++ [interpretPayload r] := by rw [hfin, hmid]
          _ = settledFor st id
              ++ (((r :: rest).find? (fun x => x.inv = some id)).map interpretPayload).toList := by
              rw [hfind]
              rfl
      · have hfind : (r :: rest).find? (fun x => x.inv = some id)
            = rest.find? (fun x => x.inv = some id) := by
          simp [List.find?_cons, hri]
        have hok2 : ∀ x ∈ rest, canInterpret x = true :=
          fun x hx => hok x (List.mem_cons_of_mem r hx)
        cases hrv : r.inv with
        | none =>
            have hstep := processResp_none st r hrv
            calc settledFor (processAll st (r :: rest)) id
                = settledFor (processAll (processResp st r) rest) id := rfl
              _ = settledFor st id
                  ++ ((rest.find? (fun x => x.inv = some id)).map interpretPayload).toList := by
                  rw [hstep]
                  exact ih st id hnd hid hok2
              _ = settledFor st id
                  ++ (((r :: rest).find? (fun x => x.inv = some id)).map interpretPayload).toList := by
                  rw [hfind]
        | some j =>
            have hji : j ≠ id := by
              intro he
              exact hri (he ▸ hrv)
            by_cases hcond : (decide (j ∈ st.pending) && canInterpret r) = true
            · have hparts := hcond
              simp only [Bool.and_eq_true, decide_eq_true_eq] at hparts
              have hstep := processResp_hit st r j hrv hparts.1 hparts.2
              have hmem2 : id ∈ st.pending.erase j :=
                (List.mem_erase_of_ne (Ne.symm hji)).mpr hid
              have hnd2 : (st.pending.erase j).Nodup := hnd.erase j
              have hmid : settledFor ⟨st.pending.erase j,
                  st.settled ++ [(j, interpretPayload r)]⟩ id = settledFor st id := by
                unfold settledFor
                rw [List.filter_append]
                simp [hji]
              calc settledFor (processAll st (r :: rest)) id
                  = settledFor (processAll ⟨st.pending.erase j,
                      st.settled ++ [(j, interpretPayload r)]⟩ rest) id := by
                    show settledFor (processAll (processResp st r) rest) id = _
                    rw [hstep]
                _ = settledFor ⟨st.pending.erase j, st.settled ++ [(j, interpretPayload r)]⟩ id
                    ++ ((rest.find? (fun x => x.inv = some id)).map interpretPayload).toList :=
                    ih _ _ hnd2 hmem2 hok2
                _ = settledFor st id
                    ++ (((r :: rest).find? (fun x => x.inv = some id)).map interpretPayload).toList := by
                    rw [hmid, hfind]
            · have hstep := processResp_miss st r j hrv (Bool.eq_false_iff.mpr hcond)
              calc settledFor (processAll st (r :: rest)) id
                  = settledFor (processAll (processResp st r) rest) id := rfl
                _ = settledFor st id
                    ++ ((rest.find? (fun x => x.inv = some id)).map interpretPayload).toList := by
                    rw [hstep]
                    exact ih st id hnd hid hok2
                _ = settledFor st id
                    ++ (((r :: rest).find? (fun x => x.inv = some id)).map interpretPayload).toList := by
                    rw [hfind]

/-- C1 counterexample: a pending invocation whose response does arrive
can nevertheless settle zero times. The worker marshals a thrown
user-defined error under its constructor name; here the error response
for invocation 1 carries kind `FooError`, `globalThis["FooError"]` is
`undefined`, so the host message handler throws while rebuilding the
error, before `events.emit` runs, and invocation 1 never settles — it
stays pending, refuting "each pending invocation settles exactly once". -/
theorem unreconstructible_error_response_never_settles :
    (Envelope.err (some 1) ⟨"FooError", "boom", ""⟩).inv = some 1
    ∧ settledFor (processAll ⟨[1], []⟩ [.err (some 1) ⟨"FooError", "boom", ""⟩]) 1 = []
    ∧ 1 ∈ (processAll ⟨[1], []⟩ [.err (some 1) ⟨"FooError", "boom", ""⟩]).pending := by
  refine ⟨rfl, by decide, by decide⟩

/-- C1 amended: with distinct pending invocation ids and responses the
handler can interpret (a `result`, an `exposed`, or an `error` whose kind
names a global error constructor), each pending invocation settles
exactly once when some response bearing its own id arrives, and zero
times otherwise; its settlement is determined by the first response
carrying its own id, regardless of arrival order, and any response
bearing an already-settled or foreign id is discarded. -/
theorem settles_exactly_once_from_own_id
    (p : List Nat) (hp : p.Nodup) (rs : List Envelope)
    (hok : ∀ r ∈ rs, canInterpret r = true) (id : Nat) (hid : id ∈ p) :
    settledFor (processAll ⟨p, []⟩ rs) id
      = ((rs.find? (fun x => x.inv = some id)).map interpretPayload).toList := by
  have h := processAll_settles_spec rs ⟨p, []⟩ id hp hid hok
  simpa [settledFor] using h

/-- C1 amended witness: two pending invocations; the response for id 2
arrives twice, then the response for id 1 arrives. Invocation 2 settles
exactly once, from the first envelope bearing id 2; the later duplicate
is discarded. -/
theorem settles_exactly_once_from_own_id_witness :
    settledFor (processAll ⟨[1, 2], []⟩
        [.result (some 2) (.vnum 5), .result (some 2) (.vnum 7),
         .err (some 1) ⟨"RangeError", "x", "s"⟩]) 2
      = [Settled.result (.vnum 5)] :=
  (settles_exactly_once_from_own_id [1, 2] (by decide)
      [.result (some 2) (.vnum 5), .result (some 2) (.vnum 7),
       .err (some 1) ⟨"RangeError", "x", "s"⟩] (by decide) 2 (by decide)).trans
    (by decide)

/-- C3: evaluation of the code at the failing input. A remote `call`
whose execution throws `RangeError("bad index")` is marshalled by the
worker as an `error` envelope with kind `RangeError` and message
`bad index`; host-side, the rebuilt rejection value is a plain object
whose only own enumerable property is `stack` (the spread of a fresh
`Error` copies neither a kind nor the non-enumerable `message`), the
inner pending invocation is rejected with it exactly once, and the
promise `request` hands to the caller then resolves with `undefined`
because of the trailing `.catch(console.error)` — the caller observes a
resolution, not the claimed rejection. -/
theorem remote_throw_swallowed_host_side :
    (onmessage
        ⟨[.vref 0], [⟨"Function", "boom", [],
            some (fun _ => .error ⟨"RangeError", "bad index", "frames"⟩), none⟩]⟩
        ⟨0, some 1, [], "call", []⟩).2
      = .err (some 1) ⟨"RangeError", "bad index", "frames"⟩
    ∧ settledFor (processAll ⟨[1], []⟩
        [.err (some 1) ⟨"RangeError", "bad index", "frames"⟩]) 1
      = [.errored ⟨[("stack", "frames")]⟩]
    ∧ innerOutcome (.errored ⟨[("stack", "frames")]⟩)
      = .rejected ⟨[("stack", "frames")]⟩
    ∧ requestReturn (.errored ⟨[("stack", "frames")]⟩) = .resolved .vundefined := by
  refine ⟨by rfl, by decide, by rfl, by rfl⟩

/-- If no timer is armed and the promise is unresolved, no sequence of
further timer firings can ever resolve it. -/
theorem flushRun_stuck (evs : List FlushEvent) :
    ∀ s : FlushState, s.timeoutArmed = false → s.recheckArmed = false →
      s.resolved = false → (flushRun s evs).resolved = false := by
  induction evs with
  | nil =>
      intro s _ _ h3
      exact h3
  | cons e rest ih =>
      intro s h1 h2 h3
      have hstep : flushStep s e = s := by
        cases e <;> simp [flushStep, h1, h2]
      show (flushRun (flushStep s e) rest).resolved = false
      rw [hstep]
      exact ih s h1 h2 h3

/-- C4: evaluation of the code at the failing input. With zero in-flight
requests, `terminate()` reaches `thread.terminate()` directly. With one
in-flight request that never responds, the flush branch is taken instead
(so `thread.terminate()` is not invoked on this path); after the
zero-delay timeout fires, the in-flight set has been force-rejected —
with a plain `Error("Timeout on worker thread")`, not a TimeoutError
class — but the same handler also ran `clearTimeout(waitHandle)`,
cancelling the only scheduled re-check, so no later timer firing can ever
run `resolve()`: the promise returned by `flush` stays pending forever
and teardown never completes. -/
theorem terminate_teardown_hangs_with_inflight :
    (terminateAfterDestroyAck 0).1 = true
    ∧ (terminateAfterDestroyAck 1).1 = false
    ∧ (terminateAfterDestroyAck 1).2 = some (flushStart 1)
    ∧ (flushStep (flushStart 1) .timeoutFires).forceRejected = true
    ∧ flushTimeoutError.type = "Error"
    ∧ flushTimeoutError.type ≠ "TimeoutError"
    ∧ ∀ evs : List FlushEvent,
        (flushRun (flushStep (flushStart 1) .timeoutFires) evs).resolved = false := by
  refine ⟨rfl, rfl, rfl, by decide, rfl, by decide, ?_⟩
  intro evs
  exact flushRun_stuck evs _ (by decide) (by decide) (by decide)

/-- C4 witness: even after both timers fire again, the flush promise of a
terminate with one never-answered request remains unresolved. -/
theorem terminate_teardown_hangs_witness :
    (flushRun (flushStep (flushStart 1) .timeoutFires)
        [.recheckFires, .timeoutFires]).resolved = false :=
  terminate_teardown_hangs_with_inflight.2.2.2.2.2.2 [.recheckFires, .timeoutFires]
